import Mathlib

/-!
Verification development for the gocesiumtiler core: a shallow embedding of
the LAS reader (`readForOctree`, `readPointsOctElem`), the tile writer
(`writeBinaryPnts`, `generateFeatureTableJson`, `generateBatchTableJson`,
`createTilesetJson`, `doWork`, `Consume`) and the octree geometric-error
computation (`computeGeometricError`), together with theorems settling the
specification claims C1-C10.

Modelling conventions:
* Go `float64` values handled by the tile writer are modelled by `GoFloat`,
  an exact-rational idealization that keeps the IEEE special values NaN and
  infinity explicit (rounding and signed zeros are not modelled).
* Go strings are modelled by Lean `String`; `golen` is the Go `len` of a
  string. The JSON emitted by the program is plain ASCII, where character
  count and byte count agree.
* File contents are modelled as `List Nat` byte lists; the filesystem
  itself (Stat/MkdirAll/WriteFile) is abstracted away, a writer returns the
  bytes it would write or the error it would return.
* External collaborators (the PROJ coordinate converter, `fmt.Sprintf`
  float formatting, the float64-to-float32 truncation of
  `ConvertTruncateFloat64ToFloat32ByteArray`, `runtime.NumCPU`) are taken
  as parameters of the embedded functions.
-/

/-- Little-endian 4-byte encoding of an integer, as written by the
`ConvertIntToByteArray` utility. Modelled from the spec: the pnts header
fields are 4-byte unsigned little-endian integers. -/
def u32le (n : Nat) : List Nat :=
  [n % 256, n / 256 % 256, n / 65536 % 256, n / 16777216 % 256]

/-- Read the little-endian 32-bit value stored at byte offset `off` of a
byte list (missing bytes read as zero). -/
def getU32 (b : List Nat) (off : Nat) : Nat :=
  b.getD off 0 + 256 * b.getD (off + 1) 0 + 65536 * b.getD (off + 2) 0 +
    16777216 * b.getD (off + 3) 0

/-- Go `len` of a string (the program only ever measures ASCII strings,
where the byte count equals the character count). -/
def golen (s : String) : Nat := s.length

/-- The bytes of a string (ASCII granularity, matching `golen`). -/
def strBytes (s : String) : List Nat := s.data.map Char.toNat

/-- Model of a Go `float64`: an exact rational payload plus the IEEE
special values NaN and signed infinity. Rounding and signed zeros are not
modelled. -/
inductive GoFloat where
  | nan : GoFloat
  | inf (positive : Bool) : GoFloat
  | fin (v : Rat) : GoFloat
deriving DecidableEq, Repr

/-- IEEE addition on the `GoFloat` model (exact on finite values). -/
def goAdd : GoFloat → GoFloat → GoFloat
  | .nan, _ => .nan
  | _, .nan => .nan
  | .inf s, .inf t => if s = t then .inf s else .nan
  | .inf s, .fin _ => .inf s
  | .fin _, .inf t => .inf t
  | .fin a, .fin b => .fin (a + b)

/-- IEEE negation on the `GoFloat` model. -/
def goNeg : GoFloat → GoFloat
  | .nan => .nan
  | .inf s => .inf (!s)
  | .fin a => .fin (-a)

/-- IEEE subtraction on the `GoFloat` model. -/
def goSub (a b : GoFloat) : GoFloat := goAdd a (goNeg b)

/-- IEEE division on the `GoFloat` model: division by zero of a nonzero
finite value gives infinity, and `0 / 0` gives NaN, as in Go. -/
def goDiv : GoFloat → GoFloat → GoFloat
  | .nan, _ => .nan
  | _, .nan => .nan
  | .inf _, .inf _ => .nan
  | .inf s, .fin b => if b < 0 then .inf (!s) else .inf s
  | .fin _, .inf _ => .fin 0
  | .fin a, .fin b =>
    if b = 0 then (if a = 0 then .nan else .inf (decide (0 ≤ a))) else .fin (a / b)

/-- A parsed LAS point (`octree.OctElement` / `data.Point`): coordinates
plus the one-byte color, intensity and classification channels. -/
structure Element where
  X : Rat
  Y : Rat
  Z : Rat
  R : Nat
  G : Nat
  B : Nat
  Intensity : Nat
  Classification : Nat
deriving DecidableEq, Repr

/-- An axis-aligned bounding box (`octree.BoundingBox`). -/
structure BBox where
  minX : Rat
  maxX : Rat
  minY : Rat
  maxY : Rat
  minZ : Rat
  maxZ : Rat
deriving DecidableEq, Repr

/-- Modelled from the spec: `BoundingBox.GetVolume` (the octree package is
not part of the source snapshot); the volume of the box is the product of
its three extents. -/
def BBox.GetVolume (b : BBox) : Rat :=
  (b.maxX - b.minX) * (b.maxY - b.minY) * (b.maxZ - b.minZ)

/-- Modelled from the spec: `BoundingBox.CanContain` (the octree package is
not part of the source snapshot); an element is contained when its position
lies inside the box on every axis. -/
def BBox.CanContain (b : BBox) (e : Element) : Bool :=
  decide (b.minX ≤ e.X) && decide (e.X ≤ b.maxX) &&
  decide (b.minY ≤ e.Y) && decide (e.Y ≤ b.maxY) &&
  decide (b.minZ ≤ e.Z) && decide (e.Z ≤ b.maxZ)

/-- The per-node payload of an octree node (`octree.OctNode` without its
link structure): bounding box, locally stored items, the two point
counters and the leaf flag. -/
structure OctNodeData where
  boundingBox : BBox
  items : List Element
  localChildrenCount : Int
  globalChildrenCount : Int
  isLeaf : Bool
deriving DecidableEq, Repr

/-- An octree node as seen by the tile writer: its own payload, the
payloads of its (up to eight) children indexed by slot, and the payloads of
its ancestors, nearest parent first (the `Parent` back-reference chain). -/
structure OctNode where
  data : OctNodeData
  children : List (Option OctNodeData)
  ancestors : List OctNodeData
deriving Repr

example : goDiv (.fin 0) (.fin 0) = GoFloat.nan := by decide
example : goDiv (.fin 1) (.fin 0) = GoFloat.inf true := by decide
example : goAdd (.fin 2) (.fin 3) = GoFloat.fin 5 := by norm_num [goAdd]
example : getU32 (u32le 305419896) 0 = 305419896 := by decide

/-- The relevant fields of the LAS public header block (`LasHeader`). -/
structure LasHeader where
  NumberPoints : Nat
  PointRecordLength : Nat
  PointFormatID : Nat
  XScaleFactor : Rat
  YScaleFactor : Rat
  ZScaleFactor : Rat
  XOffset : Rat
  YOffset : Rat
  ZOffset : Rat
  OffsetToPoints : Nat
deriving Repr

/-- The `recLengths` table of `readForOctree` / `readPointsOctElem`: the
four legal point-record lengths for each point format 0-3, indexed by the
presence of the optional intensity and user-data fields. -/
def recLengths : List (List Nat) :=
  [[20, 18, 19, 17], [28, 26, 27, 25], [26, 24, 25, 23], [34, 32, 33, 31]]

/-- The row of `recLengths` for a point format id. -/
def recLengthsRow (fmtID : Nat) : List Nat := recLengths.getD fmtID []

/-- The `if/else if` chain of `readForOctree` and `readPointsOctElem` that
selects `(usePointIntensity, usePointUserdata)` from the header. When the
record length matches none of the four entries, no branch fires and both
flags keep their Go zero value `false`. -/
def selectFlags (fmtID recLen : Nat) : Bool × Bool :=
  let row := recLengthsRow fmtID
  if recLen = row.getD 0 0 then (true, true)
  else if recLen = row.getD 1 0 then (false, true)
  else if recLen = row.getD 2 0 then (true, false)
  else if recLen = row.getD 3 0 then (false, false)
  else (false, false)

/-- Read the byte at offset `o` of a buffer; `none` models the Go
index-out-of-range panic. -/
def u8At (b : List Nat) (o : Nat) : Option Nat :=
  if o < b.length then some (b.getD o 0) else none

/-- Read the little-endian `uint16` at `b[o:o+2]`; `none` models the Go
slice-out-of-range panic. -/
def u16At (b : List Nat) (o : Nat) : Option Nat :=
  if o + 2 ≤ b.length then some (b.getD o 0 + 256 * b.getD (o + 1) 0) else none

/-- Read the little-endian `uint32` at `b[o:o+4]`; `none` models the Go
slice-out-of-range panic. -/
def u32At (b : List Nat) (o : Nat) : Option Nat :=
  if o + 4 ≤ b.length then
    some (b.getD o 0 + 256 * b.getD (o + 1) 0 + 65536 * b.getD (o + 2) 0 +
      16777216 * b.getD (o + 3) 0)
  else none

/-- Reinterpret an unsigned 32-bit value as a two's-complement `int32`
(the Go conversion `int32(binary.LittleEndian.Uint32 ...)`). -/
def int32Of (v : Nat) : Int :=
  if v < 2147483648 then (v : Int) else (v : Int) - 4294967296

/-- The body of the worker loop of `readPointsOctElem` for one point index
`i`: decode one LAS record from the shared buffer `b`, convert it with the
coordinate converter `conv` (source SRID to 4326) and apply the elevation
correction `zCorrection`, yielding the `OctElement` handed to the loader.
`none` models an index-out-of-range panic in the worker. -/
def parsePoint (hdr : LasHeader) (ui uu : Bool)
    (conv : Rat × Rat × Rat → Rat × Rat × Rat)
    (zCorrection : Rat → Rat → Rat → Rat)
    (b : List Nat) (i : Nat) : Option Element := do
  let o := i * hdr.PointRecordLength
  let xr ← u32At b o
  let yr ← u32At b (o + 4)
  let zr ← u32At b (o + 8)
  let X := (int32Of xr : Rat) * hdr.XScaleFactor + hdr.XOffset
  let Y := (int32Of yr : Rat) * hdr.YScaleFactor + hdr.YOffset
  let Z := (int32Of zr : Rat) * hdr.ZScaleFactor + hdr.ZOffset
  -- after the three coordinates the running offset is o + 12
  let (intensity, o1) ←
    if ui then do
      let v ← u16At b (o + 12)
      pure (v / 256, o + 14)
    else pure (0, o + 12)
  -- the return-info bit field at o1 is skipped without being read
  let classification ← u8At b (o1 + 1)
  -- scan angle skipped, optional user data skipped, point source id skipped
  let o2 := (if uu then o1 + 4 else o1 + 3) + 2
  -- formats 1 and 3 skip the 8-byte GPS time without reading it
  let o3 := if hdr.PointFormatID = 1 ∨ hdr.PointFormatID = 3 then o2 + 8 else o2
  let (r, g, bl) ←
    if hdr.PointFormatID = 2 ∨ hdr.PointFormatID = 3 then do
      let rv ← u16At b o3
      let gv ← u16At b (o3 + 2)
      let bv ← u16At b (o3 + 4)
      pure (rv / 256, gv / 256, bv / 256)
    else pure (0, 0, 0)
  let (tx, ty, tz) := conv (X, Y, Z)
  pure ⟨tx, ty, zCorrection tx ty tz, r, g, bl, intensity, classification⟩

/-- The `endingPoint` computation of one iteration of the block loop:
`startingPoint + blockSize`, clamped to `numPoints - 1` when it would reach
past the last index. -/
def blockEnd (n bs start : Nat) : Nat :=
  if start + bs ≥ n then n - 1 else start + bs

/-- The block-partition loop of `readPointsOctElem`: starting from
`start`, emit inclusive index ranges until the range is exhausted. -/
def blocksLoop (n bs : Nat) (start : Nat) : List (Nat × Nat) :=
  if h : start < n then
    (start, blockEnd n bs start) :: blocksLoop n bs (blockEnd n bs start + 1)
  else []
termination_by n - start
decreasing_by
  unfold blockEnd
  split <;> omega

/-- The index blocks `readPointsOctElem` hands to its `numCPU` worker
goroutines: `blockSize = numPoints / numCPU`, loop from 0. -/
def blocks (numPoints numCPU : Nat) : List (Nat × Nat) :=
  blocksLoop numPoints (numPoints / numCPU) 0

/-- The outcome of the `ReadAt` call of `readPointsOctElem`, as reported by
the operating system. -/
inductive GoReadErr where
  | eof : GoReadErr
  | ioError (msg : String) : GoReadErr
deriving DecidableEq, Repr

/-- The point buffer of `readPointsOctElem`: `make([]byte, pointsLength)`
is zero-initialized, and `ReadAt` fills it with the bytes available at
`OffsetToPoints`, leaving the tail zero on a short read. -/
def readAtBuffer (file : List Nat) (off len : Nat) : List Nat :=
  let got := (file.drop off).take len
  got ++ List.replicate (len - got.length) 0

/-- `readPointsOctElem`: slurp `NumberPoints * PointRecordLength` bytes at
`OffsetToPoints`, re-select the intensity/user-data flags, partition the
index range into blocks and decode every record. The `readAtErr` parameter
is the error returned by `ReadAt`; the source checks
`err != nil && err != io.EOF` but the `return err` in the body of that
check is commented out, so every branch continues identically. Decoded
elements are listed in index order (the goroutines write to disjoint
indices). `Except.error` models a worker panic. -/
def readPointsOctElem (numCPU : Nat)
    (conv : Rat × Rat × Rat → Rat × Rat × Rat)
    (zCorrection : Rat → Rat → Rat → Rat)
    (hdr : LasHeader) (file : List Nat) (readAtErr : Option GoReadErr) :
    Except String (List Element) :=
  let pointsLength := hdr.NumberPoints * hdr.PointRecordLength
  let b := readAtBuffer file hdr.OffsetToPoints pointsLength
  let rest :=
    let (ui, uu) := selectFlags hdr.PointFormatID hdr.PointRecordLength
    let idx := (blocks hdr.NumberPoints numCPU).flatMap
      (fun p => List.range' p.1 (p.2 + 1 - p.1))
    match idx.mapM (parsePoint hdr ui uu conv zCorrection b) with
    | some elems => Except.ok elems
    | none => Except.error "panic: index out of range"
  match readAtErr with
  | some e => if e = GoReadErr.eof then rest else rest  -- `return err` is commented out
  | none => rest

/-- `readForOctree`: open the file, read the header and the VLRs
(external stages, passed in as their outcomes), then, unless the file mode
is `"rh"`, select the intensity/user-data flags from the record length and
decode the points. Note that a record length matching no table entry does
not produce an error: the flag-selection chain simply leaves both flags
`false`. The returned value is the list of elements handed to the loader. -/
def readForOctree (numCPU : Nat)
    (conv : Rat × Rat × Rat → Rat × Rat × Rat)
    (zCorrection : Rat → Rat → Rat → Rat)
    (openResult : Except String Unit) (headerResult : Except String LasHeader)
    (vlrResult : Except String Unit) (fileMode : String)
    (file : List Nat) (readAtErr : Option GoReadErr) :
    Except String (List Element) := do
  openResult
  let hdr ← headerResult
  vlrResult
  if fileMode ≠ "rh" then
    let _flags := selectFlags hdr.PointFormatID hdr.PointRecordLength
    readPointsOctElem numCPU conv zCorrection hdr file readAtErr
  else
    pure []

example : blocks 10 5 = [(0, 2), (3, 5), (6, 8), (9, 9)] := by
  simp [blocks, blocksLoop, blockEnd]
example : blocks 10 2 = [(0, 5), (6, 9)] := by
  simp [blocks, blocksLoop, blockEnd]
example : blocks 1 1 = [(0, 0)] := by
  simp [blocks, blocksLoop, blockEnd]

/-- A run of `n` copies of the ASCII digit `0`, as produced by the Go
expression `strings.Repeat("0", spaceNo)`. -/
def zeroRun (n : Nat) : String := String.mk (List.replicate n '0')

/-- A run of `n` ASCII spaces, as produced by `strings.Repeat(" ", n)`. -/
def spaceRun (n : Nat) : String := String.mk (List.replicate n ' ')

/-- The string built by one pass of `generateFeatureTableJson` before the
padding check: the feature-table JSON with `spaceNo` ASCII `0` characters
appended directly after the formatted x component of `RTC_CENTER`.
`xs`, `ys`, `zs` are the `fmt.Sprintf("%f", ·)` renderings of the three
center components. -/
def featureBase (xs ys zs : String) (pointNo spaceNo : Nat) : String :=
  "\x7b\"POINTS_LENGTH\":" ++ toString pointNo ++ "," ++
  "\"RTC_CENTER\":[" ++ xs ++ zeroRun spaceNo ++
  "," ++ ys ++ "," ++ zs ++ "]," ++
  "\"POSITION\":" ++ "\x7b\"byteOffset\":" ++ "0" ++ "\x7d," ++
  "\"RGB\":" ++ "\x7b\"byteOffset\":" ++ toString (pointNo * 12) ++ "\x7d\x7d"

/-- `generateFeatureTableJson` exactly as written in the source: build the
string, and when its byte length is not a multiple of 4 recurse once with
`spaceNo = 4 - length % 4`. The source recursion is partial for arbitrary
`spaceNo` (only `spaceNo = 0` is ever passed), so the embedding carries a
recursion-depth budget `fuel`; `none` models nontermination. -/
def generateFeatureTableJsonRec (xs ys zs : String) (pointNo spaceNo : Nat) :
    Nat → Option String
  | 0 => none
  | fuel + 1 =>
    let sb := featureBase xs ys zs pointNo spaceNo
    let paddingSize := golen sb % 4
    if paddingSize ≠ 0 then
      generateFeatureTableJsonRec xs ys zs pointNo (4 - paddingSize) fuel
    else some sb

/-- The total one-step form of `generateFeatureTableJson` for the call
`generateFeatureTableJson(x, y, z, pointNo, 0)` made by `writeBinaryPnts`;
`generateFeatureTableJsonRec_two_fuel` proves it agrees with the source
recursion. -/
def generateFeatureTableJson (xs ys zs : String) (pointNo : Nat) : String :=
  let sb := featureBase xs ys zs pointNo 0
  let paddingSize := golen sb % 4
  if paddingSize ≠ 0 then featureBase xs ys zs pointNo (4 - paddingSize) else sb

/-- The string built by one pass of `generateBatchTableJson` before the
padding check: the batch-table JSON with `spaceNumber` trailing spaces. -/
def batchBase (pointNumber spaceNumber : Nat) : String :=
  "\x7b\"INTENSITY\":" ++ "\x7b\"byteOffset\":" ++ "0" ++
    ", \"componentType\":\"UNSIGNED_BYTE\", \"type\":\"SCALAR\"\x7d," ++
  "\"CLASSIFICATION\":" ++ "\x7b\"byteOffset\":" ++ toString pointNumber ++
    ", \"componentType\":\"UNSIGNED_BYTE\", \"type\":\"SCALAR\"\x7d\x7d" ++
  spaceRun spaceNumber

/-- `generateBatchTableJson` exactly as written in the source, with a
recursion-depth budget as for the feature table. -/
def generateBatchTableJsonRec (pointNumber spaceNumber : Nat) :
    Nat → Option String
  | 0 => none
  | fuel + 1 =>
    let sb := batchBase pointNumber spaceNumber
    let paddingSize := golen sb % 4
    if paddingSize ≠ 0 then
      generateBatchTableJsonRec pointNumber (4 - paddingSize) fuel
    else some sb

/-- The total one-step form of `generateBatchTableJson` for the call
`generateBatchTableJson(pointNo, 0)` made by `writeBinaryPnts`. -/
def generateBatchTableJson (pointNumber : Nat) : String :=
  let sb := batchBase pointNumber 0
  let paddingSize := golen sb % 4
  if paddingSize ≠ 0 then batchBase pointNumber (4 - paddingSize) else sb

/-- The item loop of `writeBinaryPnts`: convert every item's coordinates
with `converters.ConvertToWGS84Cartesian`; the first conversion error
aborts the whole write. -/
def convertAll
    (conv : Rat × Rat × Rat → Except String (GoFloat × GoFloat × GoFloat)) :
    List Element → Except String (List (GoFloat × GoFloat × GoFloat))
  | [] => .ok []
  | e :: rest =>
    match conv (e.X, e.Y, e.Z) with
    | .error err => .error err
    | .ok c =>
      match convertAll conv rest with
      | .error err => .error err
      | .ok cs => .ok (c :: cs)

/-- The byte layout assembled by `writeBinaryPnts`, in the order the source
appends the slices: magic, version, `byteLength`, the four table length
fields, feature-table JSON, positions, colors, batch-table JSON,
intensities, classifications. -/
def pntsPayload (ftj btj : String)
    (positionBytes colors intensities classifications : List Nat) : List Nat :=
  strBytes "pnts" ++ u32le 1 ++
  u32le (28 + golen ftj + positionBytes.length + colors.length) ++
  u32le (golen ftj) ++
  u32le (positionBytes.length + colors.length) ++
  u32le (golen btj) ++
  u32le (intensities.length + classifications.length) ++
  strBytes ftj ++ positionBytes ++ colors ++
  strBytes btj ++ intensities ++ classifications

/-- `writeBinaryPnts`: for each of the node's items convert the coordinates
to ECEF (any conversion error aborts), compute the running averages, emit
center-relative positions, and assemble the `content.pnts` byte layout via
`pntsPayload`. The filesystem is abstracted: the returned bytes are the
content written to `content.pnts`.
Parameters: `conv` is `converters.ConvertToWGS84Cartesian`, `formatF` is
`fmt.Sprintf("%f", ·)`, `f32b` is the per-value float64-to-float32
little-endian truncation of `ConvertTruncateFloat64ToFloat32ByteArray`
(modelled from the spec: each value becomes 4 bytes). -/
def writeBinaryPnts
    (conv : Rat × Rat × Rat → Except String (GoFloat × GoFloat × GoFloat))
    (formatF : GoFloat → String) (f32b : GoFloat → List Nat)
    (node : OctNode) : Except String (List Nat) :=
  let items := node.data.items
  let pointNo := items.length
  match convertAll conv items with
  | .error e => .error e
  | .ok converted =>
    let colors := items.flatMap (fun e => [e.R, e.G, e.B])
    let intensities := items.map (fun e => e.Intensity)
    let classifications := items.map (fun e => e.Classification)
    let avgX := goDiv ((converted.map (fun c => c.1)).foldl goAdd (.fin 0)) (.fin pointNo)
    let avgY := goDiv ((converted.map (fun c => c.2.1)).foldl goAdd (.fin 0)) (.fin pointNo)
    let avgZ := goDiv ((converted.map (fun c => c.2.2)).foldl goAdd (.fin 0)) (.fin pointNo)
    let coords := converted.flatMap
      (fun c => [goSub c.1 avgX, goSub c.2.1 avgY, goSub c.2.2 avgZ])
    let positionBytes := coords.flatMap f32b
    let featureTableStr :=
      generateFeatureTableJson (formatF avgX) (formatF avgY) (formatF avgZ) pointNo
    let batchTableStr := generateBatchTableJson pointNo
    .ok (pntsPayload featureTableStr batchTableStr positionBytes colors
      intensities classifications)

/-- The inner loop of `computeGeometricError` over one ancestor's items:
increment the counter for every item the node's bounding box can contain. -/
def countContained (bbox : BBox) (items : List Element) : Int :=
  items.foldl (fun acc e => if bbox.CanContain e then acc + 1 else acc) 0

/-- The `parent`-chasing loop of `computeGeometricError`, folding over the
ancestor chain. -/
def totalRenderedPoints (d : OctNodeData) (ancestors : List OctNodeData) : Int :=
  ancestors.foldl (fun acc p => acc + countContained d.boundingBox p.items)
    d.localChildrenCount

/-- `computeGeometricError` with the `math.Pow(·, 0.333)` application
abstracted as `gopow`, so that the tile-writer pipeline stays executable:
the density the node's own items present, minus the density if the whole
subtree were rendered. The float64 quotient `volume / float64(count)` is
idealized as exact rational division (no claim exercises a zero count). -/
def computeGeometricErrorWith (gopow : Rat → ℝ) (d : OctNodeData)
    (ancestors : List OctNodeData) : ℝ :=
  let volume := d.boundingBox.GetVolume
  let total := totalRenderedPoints d ancestors
  let densityWithAllPoints :=
    gopow (volume / ((total + d.globalChildrenCount - d.localChildrenCount : Int) : Rat))
  let densityWithOnlyThisTile := gopow (volume / (total : Rat))
  densityWithOnlyThisTile - densityWithAllPoints

/-- `math.Pow(x, 0.333)` on the real idealization of float64: the literal
`0.333` denotes the exact rational 333/1000. -/
noncomputable def goPow033 (q : Rat) : ℝ := (q : ℝ) ^ (0.333 : ℝ)

/-- `computeGeometricError` exactly as in the source:
`math.Pow(volume/count, 0.333)` densities. -/
noncomputable def computeGeometricError (d : OctNodeData)
    (ancestors : List OctNodeData) : ℝ :=
  computeGeometricErrorWith goPow033 d ancestors

structure Asset where
  version : String

structure Content where
  url : String

structure BoundingVolume where
  region : List Rat

structure Child where
  content : Content
  boundingVolume : BoundingVolume
  geometricError : ℝ
  refine : String

structure Root where
  children : List Child
  content : Content
  boundingVolume : BoundingVolume
  geometricError : ℝ
  refine : String

structure Tileset where
  asset : Asset
  geometricError : ℝ
  root : Root

/-- The `for i, child := range node.Children` loop of `createTilesetJson`:
walk the child slots in order, skip empty slots and children with no
points in their subtree, and emit a `Child` entry whose `content.url`
is `"<i>/content.pnts"` for a leaf child and `"<i>/tileset.json"`
otherwise. A region-conversion error aborts. `parentChain` is the parent
chain seen by a child: the node itself, then the node's ancestors. -/
def tilesetChildrenLoop (gopow : Rat → ℝ)
    (conv2D : BBox → Except String (List Rat))
    (parentChain : List OctNodeData) :
    List (Nat × Option OctNodeData) → Except String (List Child)
  | [] => .ok []
  | (_, none) :: rest => tilesetChildrenLoop gopow conv2D parentChain rest
  | (i, some c) :: rest =>
    if c.globalChildrenCount > 0 then
      match conv2D c.boundingBox with
      | .error e => .error e
      | .ok reg =>
        match tilesetChildrenLoop gopow conv2D parentChain rest with
        | .error e => .error e
        | .ok tail =>
          .ok ({ content := ⟨toString i ++ "/" ++
                   (if c.isLeaf then "content.pnts" else "tileset.json")⟩,
                 boundingVolume := ⟨reg⟩,
                 geometricError := computeGeometricErrorWith gopow c parentChain,
                 refine := "add" } :: tail)
    else tilesetChildrenLoop gopow conv2D parentChain rest

/-- `createTilesetJson`: for a non-leaf node build the tileset manifest
(asset version `"0.0"`, child entries per `tilesetChildrenLoop`, root
content `content.pnts`, region from the converter, refine `"add"`); for a
leaf node return an error. The structure is returned in place of its JSON
marshalling. `conv2D` is `converters.Convert2DBoundingboxToWGS84Region`. -/
def createTilesetJson (gopow : Rat → ℝ)
    (conv2D : BBox → Except String (List Rat))
    (node : OctNode) : Except String Tileset :=
  if !node.data.isLeaf then
    match tilesetChildrenLoop gopow conv2D (node.data :: node.ancestors)
      node.children.enum with
    | .error e => .error e
    | .ok children =>
      match conv2D node.data.boundingBox with
      | .error e => .error e
      | .ok reg =>
        .ok { asset := ⟨"0.0"⟩,
              geometricError := computeGeometricErrorWith gopow node.data node.ancestors,
              root := { children := children,
                        content := ⟨"content.pnts"⟩,
                        boundingVolume := ⟨reg⟩,
                        geometricError :=
                          computeGeometricErrorWith gopow node.data node.ancestors,
                        refine := "add" } }
  else
    .error "this node is a leaf, cannot create tileset json for it"

/-- `writeJsonTileset`: create the tileset JSON for the node and write it
to `tileset.json` (the filesystem is abstracted: the manifest is
returned). -/
def writeJsonTileset (gopow : Rat → ℝ)
    (conv2D : BBox → Except String (List Rat))
    (node : OctNode) : Except String Tileset :=
  createTilesetJson gopow conv2D node

/-- A tile-writer work unit (`WorkUnit`): the octree node and the output
directory path. -/
structure WorkUnit where
  node : OctNode
  basePath : String

/-- `doWork`: write the node's `content.pnts`; when the node is not a leaf
also write its `tileset.json`. The result pairs the pnts bytes with the
optional tileset manifest. -/
def doWork (gopow : Rat → ℝ)
    (conv : Rat × Rat × Rat → Except String (GoFloat × GoFloat × GoFloat))
    (formatF : GoFloat → String) (f32b : GoFloat → List Nat)
    (conv2D : BBox → Except String (List Rat)) (workUnit : WorkUnit) :
    Except String (List Nat × Option Tileset) :=
  match writeBinaryPnts conv formatF f32b workUnit.node with
  | .error e => .error e
  | .ok pnts =>
    if !workUnit.node.data.isLeaf then
      match writeJsonTileset gopow conv2D workUnit.node with
      | .error e => .error e
      | .ok ts => .ok (pnts, some ts)
    else .ok (pnts, none)

/-- `Consume`: one tile-writer worker's loop. The worker receives the
listed work units in order (the list ends where the producer closes the
channel), runs `doWork` on each, and on the first error posts that error
to the error channel and stops. The result is the list of errors posted to
the error channel and the number of work units processed. -/
def Consume (gopow : Rat → ℝ)
    (conv : Rat × Rat × Rat → Except String (GoFloat × GoFloat × GoFloat))
    (formatF : GoFloat → String) (f32b : GoFloat → List Nat)
    (conv2D : BBox → Except String (List Rat)) :
    List WorkUnit → List String × Nat
  | [] => ([], 0)
  | w :: ws =>
    match doWork gopow conv formatF f32b conv2D w with
    | .error e => ([e], 1)
    | .ok _ =>
      let r := Consume gopow conv formatF f32b conv2D ws
      (r.1, r.2 + 1)

/-! ### Properties of the block partition (claim C8) -/

theorem range'_cover (s e n : Nat) (h1 : s ≤ e) (h2 : e < n) :
    List.range' s (e + 1 - s) ++ List.range' (e + 1) (n - (e + 1))
      = List.range' s (n - s) := by
  have h := List.range'_append_1 s (e + 1 - s) (n - (e + 1))
  rw [show s + (e + 1 - s) = e + 1 from by omega] at h
  rw [h]
  congr 1
  omega

theorem blocksLoop_flatten (n bs : Nat) : ∀ fuel s, n - s ≤ fuel →
    ((blocksLoop n bs s).map (fun p => List.range' p.1 (p.2 + 1 - p.1))).flatten
      = List.range' s (n - s) := by
  intro fuel
  induction fuel with
  | zero =>
    intro s hs
    have hns : ¬ s < n := by omega
    rw [blocksLoop, dif_neg hns]
    have h0 : n - s = 0 := by omega
    simp [h0]
  | succ m ih =>
    intro s hs
    by_cases hsn : s < n
    · rw [blocksLoop, dif_pos hsn]
      have he1 : s ≤ blockEnd n bs s := by unfold blockEnd; split <;> omega
      have he2 : blockEnd n bs s < n := by unfold blockEnd; split <;> omega
      have hfuel : n - (blockEnd n bs s + 1) ≤ m := by omega
      simp only [List.map_cons, List.flatten_cons, ih (blockEnd n bs s + 1) hfuel]
      exact range'_cover s (blockEnd n bs s) n he1 he2
    · rw [blocksLoop, dif_neg hsn]
      have h0 : n - s = 0 := by omega
      simp [h0]

theorem blocksLoop_length (n bs : Nat) : ∀ fuel s, n - s ≤ fuel →
    (blocksLoop n bs s).length = ((n - s) + bs) / (bs + 1) := by
  intro fuel
  induction fuel with
  | zero =>
    intro s hs
    have hns : ¬ s < n := by omega
    rw [blocksLoop, dif_neg hns]
    have h0 : n - s = 0 := by omega
    rw [h0]
    have : bs / (bs + 1) = 0 := Nat.div_eq_of_lt (by omega)
    simpa using this.symm
  | succ m ih =>
    intro s hs
    by_cases hsn : s < n
    · rw [blocksLoop, dif_pos hsn]
      have he1 : s ≤ blockEnd n bs s := by unfold blockEnd; split <;> omega
      have he2 : blockEnd n bs s < n := by unfold blockEnd; split <;> omega
      have hfuel : n - (blockEnd n bs s + 1) ≤ m := by omega
      simp only [List.length_cons, ih (blockEnd n bs s + 1) hfuel]
      by_cases hcl : s + bs ≥ n
      · have hend : blockEnd n bs s = n - 1 := by unfold blockEnd; rw [if_pos hcl]
        have h0 : n - (blockEnd n bs s + 1) = 0 := by omega
        rw [h0]
        have hz : (0 + bs) / (bs + 1) = 0 := Nat.div_eq_of_lt (by omega)
        have hlo : 1 * (bs + 1) ≤ (n - s) + bs := by omega
        have hhi : (n - s) + bs < (1 + 1) * (bs + 1) := by omega
        rw [hz, Nat.div_eq_of_lt_le hlo hhi]
      · have hend : blockEnd n bs s = s + bs := by unfold blockEnd; rw [if_neg hcl]
        rw [hend]
        have harith : (n - s) + bs = ((n - (s + bs + 1)) + bs) + (bs + 1) := by omega
        rw [harith, Nat.add_div_right _ (Nat.succ_pos bs)]
    · rw [blocksLoop, dif_neg hsn]
      have h0 : n - s = 0 := by omega
      rw [h0]
      have hz : bs / (bs + 1) = 0 := Nat.div_eq_of_lt (by omega)
      simpa using hz.symm

theorem blocksLoop_nonlast (n bs : Nat) : ∀ fuel s, n - s ≤ fuel →
    ∀ blk ∈ (blocksLoop n bs s).dropLast, blk.2 = blk.1 + bs := by
  intro fuel
  induction fuel with
  | zero =>
    intro s hs
    have hns : ¬ s < n := by omega
    rw [blocksLoop, dif_neg hns]
    simp
  | succ m ih =>
    intro s hs
    by_cases hsn : s < n
    · rw [blocksLoop, dif_pos hsn]
      have he1 : s ≤ blockEnd n bs s := by unfold blockEnd; split <;> omega
      have he2 : blockEnd n bs s < n := by unfold blockEnd; split <;> omega
      have hfuel : n - (blockEnd n bs s + 1) ≤ m := by omega
      intro blk hblk
      rcases eq_or_ne (blocksLoop n bs (blockEnd n bs s + 1)) [] with hnil | hne
      · rw [hnil] at hblk
        simp at hblk
      · rw [List.dropLast_cons_of_ne_nil hne] at hblk
        rcases List.mem_cons.mp hblk with hfst | hrest
        · -- the head block is not clamped, otherwise the tail loop were empty
          by_cases hcl : s + bs ≥ n
          · exfalso
            have hend : blockEnd n bs s = n - 1 := by unfold blockEnd; rw [if_pos hcl]
            have hstop : ¬ blockEnd n bs s + 1 < n := by omega
            rw [blocksLoop, dif_neg hstop] at hne
            exact hne rfl
          · have hend : blockEnd n bs s = s + bs := by unfold blockEnd; rw [if_neg hcl]
            rw [hfst, hend]
        · exact ih (blockEnd n bs s + 1) hfuel blk hrest
    · rw [blocksLoop, dif_neg hsn]
      simp

/-- C8, as written in the claim, fails: with 10 points and 5 workers the
loop covers the index range in only 4 contiguous blocks, not 5. -/
theorem C8_counterexample :
    ((blocks 10 5).map (fun p => List.range' p.1 (p.2 + 1 - p.1))).flatten
      = List.range 10 ∧
    (blocks 10 5).length = 4 ∧ ¬ (blocks 10 5).length = 5 := by
  have hb : blocks 10 5 = [(0, 2), (3, 5), (6, 8), (9, 9)] := by
    simp [blocks, blocksLoop, blockEnd]
  rw [hb]
  refine ⟨by decide, rfl, by decide⟩

/-- C8 (amended): `readPointsOctElem` partitions the index range
`[0, numPoints)` into contiguous blocks that cover it exactly once; every
block except possibly the last spans `blockSize + 1` indices
(`blockSize = numPoints / numCPU`), and the number of blocks is
`(numPoints + blockSize) / (blockSize + 1)`, which is at most `numCPU` but
can be strictly smaller. -/
theorem C8_blocks_partition (numPoints numCPU : Nat)
    (hn : 1 ≤ numPoints) (hc : 1 ≤ numCPU) :
    ((blocks numPoints numCPU).map (fun p => List.range' p.1 (p.2 + 1 - p.1))).flatten
      = List.range numPoints ∧
    (blocks numPoints numCPU).length
      = (numPoints + numPoints / numCPU) / (numPoints / numCPU + 1) ∧
    (blocks numPoints numCPU).length ≤ numCPU ∧
    ∀ blk ∈ (blocks numPoints numCPU).dropLast,
      blk.2 = blk.1 + numPoints / numCPU := by
  have hcov := blocksLoop_flatten numPoints (numPoints / numCPU) numPoints 0 (by omega)
  have hlen := blocksLoop_length numPoints (numPoints / numCPU) numPoints 0 (by omega)
  have hnl := blocksLoop_nonlast numPoints (numPoints / numCPU) numPoints 0 (by omega)
  refine ⟨?_, ?_, ?_, hnl⟩
  · rw [blocks, hcov, List.range_eq_range', Nat.sub_zero]
  · rw [blocks, hlen, Nat.sub_zero]
  · rw [blocks, hlen, Nat.sub_zero]
    have hmod : numPoints % numCPU < numCPU := Nat.mod_lt _ (by omega)
    have hdm : numCPU * (numPoints / numCPU) + numPoints % numCPU = numPoints :=
      Nat.div_add_mod numPoints numCPU
    have hdivlt : (numPoints + numPoints / numCPU) / (numPoints / numCPU + 1)
        < numCPU + 1 := by
      rw [Nat.div_lt_iff_lt_mul (Nat.succ_pos (numPoints / numCPU))]
      have hexp : (numCPU + 1) * (numPoints / numCPU + 1)
          = numCPU * (numPoints / numCPU) + numCPU + numPoints / numCPU + 1 := by
        ring
      rw [hexp]
      linarith [hdm, hmod]
    omega

/-- C8 witness: the amended partition facts at `numPoints = 10`,
`numCPU = 3`. -/
theorem C8_blocks_partition_witness :
    ((blocks 10 3).map (fun p => List.range' p.1 (p.2 + 1 - p.1))).flatten
      = List.range 10 ∧
    (blocks 10 3).length = (10 + 10 / 3) / (10 / 3 + 1) ∧
    (blocks 10 3).length ≤ 3 :=
  ⟨(C8_blocks_partition 10 3 (by omega) (by omega)).1,
   (C8_blocks_partition 10 3 (by omega) (by omega)).2.1,
   (C8_blocks_partition 10 3 (by omega) (by omega)).2.2.1⟩

/-! ### The tile-writer worker loop (claim C9) -/

theorem Consume_all_ok (gopow : Rat → ℝ)
    (conv : Rat × Rat × Rat → Except String (GoFloat × GoFloat × GoFloat))
    (formatF : GoFloat → String) (f32b : GoFloat → List Nat)
    (conv2D : BBox → Except String (List Rat)) :
    ∀ ws : List WorkUnit,
      (∀ w ∈ ws, (doWork gopow conv formatF f32b conv2D w).isOk = true) →
      Consume gopow conv formatF f32b conv2D ws = ([], ws.length) := by
  intro ws
  induction ws with
  | nil => intro _; rfl
  | cons w rest ih =>
    intro h
    have hw := h w (List.mem_cons_self w rest)
    cases hdw : doWork gopow conv formatF f32b conv2D w with
    | error e => rw [hdw] at hw; simp [Except.isOk, Except.toBool] at hw
    | ok r =>
      have hrest := ih (fun u hu => h u (List.mem_cons_of_mem w hu))
      simp [Consume, hdw, hrest]

/-- C9: a worker (`Consume`) posts the error of the first failing work
unit exactly once to the error channel and processes no further units; on
a closed work channel (the end of the unit list) it exits without posting
any error. -/
theorem C9_consume_first_error (gopow : Rat → ℝ)
    (conv : Rat × Rat × Rat → Except String (GoFloat × GoFloat × GoFloat))
    (formatF : GoFloat → String) (f32b : GoFloat → List Nat)
    (conv2D : BBox → Except String (List Rat))
    (good : List WorkUnit) (bad : WorkUnit) (rest : List WorkUnit) (e : String)
    (hg : ∀ w ∈ good, (doWork gopow conv formatF f32b conv2D w).isOk = true)
    (he : doWork gopow conv formatF f32b conv2D bad = .error e) :
    Consume gopow conv formatF f32b conv2D (good ++ bad :: rest)
      = ([e], good.length + 1) ∧
    ∀ ws : List WorkUnit,
      (∀ w ∈ ws, (doWork gopow conv formatF f32b conv2D w).isOk = true) →
      Consume gopow conv formatF f32b conv2D ws = ([], ws.length) := by
  refine ⟨?_, Consume_all_ok gopow conv formatF f32b conv2D⟩
  induction good with
  | nil => simp [Consume, he]
  | cons w ws ih =>
    have hw := hg w (List.mem_cons_self w ws)
    cases hdw : doWork gopow conv formatF f32b conv2D w with
    | error e2 => rw [hdw] at hw; simp [Except.isOk, Except.toBool] at hw
    | ok r =>
      have htail := ih (fun u hu => hg u (List.mem_cons_of_mem w hu))
      simp [Consume, hdw, htail]

/-- A point used by the concrete worker scenarios. -/
def elemW : Element := ⟨0, 0, 0, 0, 0, 0, 0, 0⟩

/-- A node carrying one item, used by the concrete worker scenarios. -/
def nodeBadW : OctNode := ⟨⟨⟨0, 1, 0, 1, 0, 1⟩, [elemW], 1, 1, true⟩, [], []⟩

/-- A coordinate converter that always fails. -/
def convBadW : Rat × Rat × Rat → Except String (GoFloat × GoFloat × GoFloat) :=
  fun _ => .error "conversion failed"

/-- A constant float formatter standing in for `fmt.Sprintf("%f", ·)`. -/
def formatW : GoFloat → String := fun _ => "0.000000"

/-- A constant float32 encoder standing in for the per-value truncation. -/
def f32W : GoFloat → List Nat := fun _ => [0, 0, 0, 0]

/-- A region converter that always succeeds. -/
def conv2DW : BBox → Except String (List Rat) := fun _ => .ok []

/-- C9 witness: a worker fed one failing unit posts that error once and
stops after one unit. -/
theorem C9_consume_first_error_witness :
    Consume goPow033 convBadW formatW f32W conv2DW [⟨nodeBadW, "out"⟩]
      = (["conversion failed"], 1) :=
  (C9_consume_first_error goPow033 convBadW formatW f32W conv2DW
    [] ⟨nodeBadW, "out"⟩ [] "conversion failed" (by simp) rfl).1

/-! ### JSON header padding (claim C4) -/

theorem golen_append (a b : String) : golen (a ++ b) = golen a + golen b := by
  simp [golen, String.length_append]

theorem golen_zeroRun (n : Nat) : golen (zeroRun n) = n := by
  simp [golen, zeroRun, String.length]

theorem golen_spaceRun (n : Nat) : golen (spaceRun n) = n := by
  simp [golen, spaceRun, String.length]

theorem golen_featureBase (xs ys zs : String) (pointNo spaceNo : Nat) :
    golen (featureBase xs ys zs pointNo spaceNo)
      = golen (featureBase xs ys zs pointNo 0) + spaceNo := by
  simp [featureBase, golen_append, golen_zeroRun]
  omega

theorem golen_batchBase (pointNumber spaceNumber : Nat) :
    golen (batchBase pointNumber spaceNumber)
      = golen (batchBase pointNumber 0) + spaceNumber := by
  simp [batchBase, golen_append, golen_spaceRun]

set_option maxHeartbeats 1000000 in
theorem generateFeatureTableJsonRec_two_fuel (xs ys zs : String) (n : Nat) :
    generateFeatureTableJsonRec xs ys zs n 0 2
      = some (generateFeatureTableJson xs ys zs n) := by
  simp only [generateFeatureTableJsonRec, generateFeatureTableJson]
  by_cases h : golen (featureBase xs ys zs n 0) % 4 ≠ 0
  · rw [if_pos h, if_pos h]
    have hlen := golen_featureBase xs ys zs n (4 - golen (featureBase xs ys zs n 0) % 4)
    rw [if_neg (by omega)]
  · rw [if_neg h, if_neg h]

set_option maxHeartbeats 1000000 in
theorem generateBatchTableJsonRec_two_fuel (n : Nat) :
    generateBatchTableJsonRec n 0 2 = some (generateBatchTableJson n) := by
  simp only [generateBatchTableJsonRec, generateBatchTableJson]
  by_cases h : golen (batchBase n 0) % 4 ≠ 0
  · rw [if_pos h, if_pos h]
    have hlen := golen_batchBase n (4 - golen (batchBase n 0) % 4)
    rw [if_neg (by omega)]
  · rw [if_neg h, if_neg h]

theorem golen_generateFeatureTableJson_mod (xs ys zs : String) (n : Nat) :
    golen (generateFeatureTableJson xs ys zs n) % 4 = 0 := by
  simp only [generateFeatureTableJson]
  by_cases h : golen (featureBase xs ys zs n 0) % 4 ≠ 0
  · rw [if_pos h, golen_featureBase]
    omega
  · rw [if_neg h]
    omega

theorem golen_generateBatchTableJson_mod (n : Nat) :
    golen (generateBatchTableJson n) % 4 = 0 := by
  simp only [generateBatchTableJson]
  by_cases h : golen (batchBase n 0) % 4 ≠ 0
  · rw [if_pos h, golen_batchBase]
    omega
  · rw [if_neg h]
    omega

set_option maxHeartbeats 4000000 in
/-- C4, as written in the claim, fails: when padding is needed, the
feature-table header is padded with ASCII `0` digit characters appended to
the formatted x component of `RTC_CENTER`, not with spaces. For one point
the header is 113 bytes, and the emitted header extends the x literal
`0.000000` to `0.000000000` rather than appending three spaces. -/
theorem C4_counterexample :
    generateFeatureTableJson "0.000000" "0.000000" "0.000000" 1
      = featureBase "0.000000" "0.000000" "0.000000" 1 3 ∧
    featureBase "0.000000" "0.000000" "0.000000" 1 3
      ≠ featureBase "0.000000" "0.000000" "0.000000" 1 0 ++ spaceRun 3 := by
  constructor
  · decide
  · decide

/-- C4 (amended): both JSON headers are padded to a byte length that is a
multiple of 4, but only the batch-table header is padded with trailing
ASCII spaces; the feature-table header is padded by appending ASCII `0`
digit characters to the fractional part of the x component of
`RTC_CENTER` (which preserves the numeric value but is not whitespace
padding). -/
theorem C4_padding (xs ys zs : String) (n : Nat) :
    golen (generateFeatureTableJson xs ys zs n) % 4 = 0 ∧
    golen (generateBatchTableJson n) % 4 = 0 ∧
    generateFeatureTableJson xs ys zs n
      = featureBase xs ys zs n ((4 - golen (featureBase xs ys zs n 0) % 4) % 4) ∧
    generateBatchTableJson n
      = batchBase n ((4 - golen (batchBase n 0) % 4) % 4) := by
  refine ⟨golen_generateFeatureTableJson_mod xs ys zs n,
    golen_generateBatchTableJson_mod n, ?_, ?_⟩
  · simp only [generateFeatureTableJson]
    by_cases h : golen (featureBase xs ys zs n 0) % 4 ≠ 0
    · rw [if_pos h,
        Nat.mod_eq_of_lt (by omega : 4 - golen (featureBase xs ys zs n 0) % 4 < 4)]
    · rw [if_neg h]
      have h0 : golen (featureBase xs ys zs n 0) % 4 = 0 := by omega
      rw [h0]
  · simp only [generateBatchTableJson]
    by_cases h : golen (batchBase n 0) % 4 ≠ 0
    · rw [if_pos h,
        Nat.mod_eq_of_lt (by omega : 4 - golen (batchBase n 0) % 4 < 4)]
    · rw [if_neg h]
      have h0 : golen (batchBase n 0) % 4 = 0 := by omega
      rw [h0]

/-! ### The content.pnts header fields (claims C3, C6, C10) -/

theorem length_strBytes (s : String) : (strBytes s).length = golen s := by
  simp only [strBytes, List.length_map, golen, String.length]

theorem getU32_append_drop (a b : List Nat) (n i : Nat) (h : n = a.length + i) :
    getU32 (a ++ b) n = getU32 b i := by
  subst h
  simp only [getU32]
  rw [List.getD_append_right _ _ _ _ (by omega),
      List.getD_append_right _ _ _ _ (by omega),
      List.getD_append_right _ _ _ _ (by omega),
      List.getD_append_right _ _ _ _ (by omega)]
  have e1 : a.length + i - a.length = i := by omega
  have e2 : a.length + i + 1 - a.length = i + 1 := by omega
  have e3 : a.length + i + 2 - a.length = i + 2 := by omega
  have e4 : a.length + i + 3 - a.length = i + 3 := by omega
  rw [e1, e2, e3, e4]

theorem getU32_u32le (v : Nat) (rest : List Nat) :
    getU32 (u32le v ++ rest) 0 = v % 4294967296 := by
  simp only [getU32, u32le, List.cons_append, List.nil_append,
    List.getD_cons_zero, List.getD_cons_succ]
  omega

theorem getU32_skip_u32le (v : Nat) (b : List Nat) (n i : Nat) (h : n = 4 + i) :
    getU32 (u32le v ++ b) n = getU32 b i :=
  getU32_append_drop _ _ _ _ (by subst h; simp [u32le])

theorem getU32_skip_magic (b : List Nat) (n i : Nat) (h : n = 4 + i) :
    getU32 (strBytes "pnts" ++ b) n = getU32 b i :=
  getU32_append_drop _ _ _ _ (by subst h; rfl)

theorem pntsPayload_field8 (ftj btj : String) (pos col ints cls : List Nat) :
    getU32 (pntsPayload ftj btj pos col ints cls) 8
      = (28 + golen ftj + pos.length + col.length) % 4294967296 := by
  unfold pntsPayload
  simp only [List.append_assoc]
  rw [getU32_skip_magic _ 8 4 rfl, getU32_skip_u32le 1 _ 4 0 rfl]
  exact getU32_u32le _ _

theorem pntsPayload_field12 (ftj btj : String) (pos col ints cls : List Nat) :
    getU32 (pntsPayload ftj btj pos col ints cls) 12
      = golen ftj % 4294967296 := by
  unfold pntsPayload
  simp only [List.append_assoc]
  rw [getU32_skip_magic _ 12 8 rfl, getU32_skip_u32le 1 _ 8 4 rfl,
      getU32_skip_u32le _ _ 4 0 rfl]
  exact getU32_u32le _ _

theorem pntsPayload_field16 (ftj btj : String) (pos col ints cls : List Nat) :
    getU32 (pntsPayload ftj btj pos col ints cls) 16
      = (pos.length + col.length) % 4294967296 := by
  unfold pntsPayload
  simp only [List.append_assoc]
  rw [getU32_skip_magic _ 16 12 rfl, getU32_skip_u32le 1 _ 12 8 rfl,
      getU32_skip_u32le _ _ 8 4 rfl, getU32_skip_u32le _ _ 4 0 rfl]
  exact getU32_u32le _ _

theorem pntsPayload_field20 (ftj btj : String) (pos col ints cls : List Nat) :
    getU32 (pntsPayload ftj btj pos col ints cls) 20
      = golen btj % 4294967296 := by
  unfold pntsPayload
  simp only [List.append_assoc]
  rw [getU32_skip_magic _ 20 16 rfl, getU32_skip_u32le 1 _ 16 12 rfl,
      getU32_skip_u32le _ _ 12 8 rfl, getU32_skip_u32le _ _ 8 4 rfl,
      getU32_skip_u32le _ _ 4 0 rfl]
  exact getU32_u32le _ _

theorem pntsPayload_field24 (ftj btj : String) (pos col ints cls : List Nat) :
    getU32 (pntsPayload ftj btj pos col ints cls) 24
      = (ints.length + cls.length) % 4294967296 := by
  unfold pntsPayload
  simp only [List.append_assoc]
  rw [getU32_skip_magic _ 24 20 rfl, getU32_skip_u32le 1 _ 20 16 rfl,
      getU32_skip_u32le _ _ 16 12 rfl, getU32_skip_u32le _ _ 12 8 rfl,
      getU32_skip_u32le _ _ 8 4 rfl, getU32_skip_u32le _ _ 4 0 rfl]
  exact getU32_u32le _ _

theorem convertAll_ok_length
    (conv : Rat × Rat × Rat → Except String (GoFloat × GoFloat × GoFloat)) :
    ∀ (items : List Element) (l : List (GoFloat × GoFloat × GoFloat)),
      convertAll conv items = .ok l → l.length = items.length := by
  intro items
  induction items with
  | nil =>
    intro l h
    simp only [convertAll] at h
    cases h
    rfl
  | cons e rest ih =>
    intro l h
    simp only [convertAll] at h
    cases hc : conv (e.X, e.Y, e.Z) with
    | error err => rw [hc] at h; cases h
    | ok c =>
      rw [hc] at h
      cases hr : convertAll conv rest with
      | error err => rw [hr] at h; cases h
      | ok cs =>
        rw [hr] at h
        cases h
        simp [ih cs hr]

theorem length_flatMap_triple {α β : Type} (f g h : α → β) :
    ∀ l : List α, (l.flatMap (fun x => [f x, g x, h x])).length = 3 * l.length := by
  intro l
  induction l with
  | nil => rfl
  | cons x rest ih => simp [List.flatMap_cons, ih]; omega

theorem length_flatMap_const4 {α : Type} (f : α → List Nat)
    (hf : ∀ v, (f v).length = 4) :
    ∀ l : List α, (l.flatMap f).length = 4 * l.length := by
  intro l
  induction l with
  | nil => rfl
  | cons x rest ih => simp [List.flatMap_cons, ih, hf x]; omega

theorem writeBinaryPnts_ok_shape
    (conv : Rat × Rat × Rat → Except String (GoFloat × GoFloat × GoFloat))
    (formatF : GoFloat → String) (f32b : GoFloat → List Nat)
    (node : OctNode) (bytes : List Nat)
    (hw : writeBinaryPnts conv formatF f32b node = .ok bytes) :
    ∃ (xs ys zs : String) (coords : List GoFloat)
      (converted : List (GoFloat × GoFloat × GoFloat)),
      convertAll conv node.data.items = .ok converted ∧
      coords.length = 3 * converted.length ∧
      converted.length = node.data.items.length ∧
      bytes = pntsPayload
        (generateFeatureTableJson xs ys zs node.data.items.length)
        (generateBatchTableJson node.data.items.length)
        (coords.flatMap f32b)
        (node.data.items.flatMap (fun e => [e.R, e.G, e.B]))
        (node.data.items.map (fun e => e.Intensity))
        (node.data.items.map (fun e => e.Classification)) := by
  simp only [writeBinaryPnts] at hw
  cases hconv : convertAll conv node.data.items with
  | error e =>
    rw [hconv] at hw
    cases hw
  | ok converted =>
    rw [hconv] at hw
    simp only [Except.ok.injEq] at hw
    refine ⟨_, _, _, _, converted, rfl, ?_, convertAll_ok_length conv _ _ hconv, hw.symm⟩
    exact length_flatMap_triple _ _ _ converted

/-- C3 (amended): in every `content.pnts` file emitted by
`writeBinaryPnts`, the two JSON length fields (byte offsets 12 and 20) are
multiples of 4, but the two binary length fields are `15 * N` (offset 16:
positions plus colors) and `2 * N` (offset 24: intensities plus
classifications) reduced modulo 2^32, which are not multiples of 4 for
general `N`. -/
theorem C3_pnts_length_fields
    (conv : Rat × Rat × Rat → Except String (GoFloat × GoFloat × GoFloat))
    (formatF : GoFloat → String) (f32b : GoFloat → List Nat)
    (node : OctNode) (bytes : List Nat)
    (hf : ∀ v, (f32b v).length = 4)
    (hw : writeBinaryPnts conv formatF f32b node = .ok bytes) :
    getU32 bytes 12 % 4 = 0 ∧ getU32 bytes 20 % 4 = 0 ∧
    getU32 bytes 16 = 15 * node.data.items.length % 4294967296 ∧
    getU32 bytes 24 = 2 * node.data.items.length % 4294967296 := by
  obtain ⟨xs, ys, zs, coords, converted, hconv, hclen, hcvl, hb⟩ :=
    writeBinaryPnts_ok_shape conv formatF f32b node bytes hw
  subst hb
  have hpos : (coords.flatMap f32b).length = 4 * coords.length :=
    length_flatMap_const4 f32b hf coords
  have hcol : (node.data.items.flatMap (fun e => [e.R, e.G, e.B])).length
      = 3 * node.data.items.length :=
    length_flatMap_triple _ _ _ node.data.items
  refine ⟨?_, ?_, ?_, ?_⟩
  · rw [pntsPayload_field12]
    have := golen_generateFeatureTableJson_mod xs ys zs node.data.items.length
    omega
  · rw [pntsPayload_field20]
    have := golen_generateBatchTableJson_mod node.data.items.length
    omega
  · rw [pntsPayload_field16, hpos, hcol]
    have : 4 * coords.length + 3 * node.data.items.length
        = 15 * node.data.items.length := by omega
    rw [this]
  · rw [pntsPayload_field24]
    simp only [List.length_map]
    have : node.data.items.length + node.data.items.length
        = 2 * node.data.items.length := by omega
    rw [this]

/-- A node holding exactly one item, used for the concrete pnts file. -/
def nodeOneItem : OctNode := ⟨⟨⟨0, 1, 0, 1, 0, 1⟩, [elemW], 1, 1, true⟩, [], []⟩

/-- A coordinate converter that always succeeds with the origin. -/
def convOkW : Rat × Rat × Rat → Except String (GoFloat × GoFloat × GoFloat) :=
  fun _ => .ok (.fin 0, .fin 0, .fin 0)

/-- The concrete `content.pnts` bytes written for `nodeOneItem`. -/
def pntsBytes1 : List Nat :=
  pntsPayload (generateFeatureTableJson "0.000000" "0.000000" "0.000000" 1)
    (generateBatchTableJson 1) (List.replicate 12 0) [0, 0, 0] [0] [0]

set_option maxHeartbeats 4000000 in
/-- C3, as written in the claim, fails: the file written for a one-point
node has featureTableBinary length field (byte offset 16) equal to 15,
which is not a multiple of 4. -/
theorem C3_counterexample :
    writeBinaryPnts convOkW formatW f32W nodeOneItem = .ok pntsBytes1 ∧
    getU32 pntsBytes1 16 = 15 ∧ ¬ getU32 pntsBytes1 16 % 4 = 0 := by
  refine ⟨rfl, ?_, ?_⟩
  · decide
  · decide

/-- C3 witness: the amended field facts on the concrete one-point file. -/
theorem C3_pnts_length_fields_witness :
    getU32 pntsBytes1 12 % 4 = 0 ∧ getU32 pntsBytes1 20 % 4 = 0 ∧
    getU32 pntsBytes1 16 = 15 * 1 % 4294967296 ∧
    getU32 pntsBytes1 24 = 2 * 1 % 4294967296 :=
  C3_pnts_length_fields convOkW formatW f32W nodeOneItem pntsBytes1
    (fun _ => rfl) rfl

/-- C6: in every `content.pnts` file emitted by `writeBinaryPnts` for a
node with `N` local items, the `byteLength` field at byte offset 8 equals
`28 + featureTableJSONlen + 12*N + 3*N`, where `featureTableJSONlen` is
the header's own feature-table length field at byte offset 12 (the
hypothesis rules out 32-bit wraparound of the stored field). -/
theorem C6_pnts_byteLength
    (conv : Rat × Rat × Rat → Except String (GoFloat × GoFloat × GoFloat))
    (formatF : GoFloat → String) (f32b : GoFloat → List Nat)
    (node : OctNode) (bytes : List Nat)
    (hf : ∀ v, (f32b v).length = 4)
    (hw : writeBinaryPnts conv formatF f32b node = .ok bytes)
    (hfit : 28 + getU32 bytes 12 + 15 * node.data.items.length < 4294967296) :
    getU32 bytes 8 = 28 + getU32 bytes 12
      + 12 * node.data.items.length + 3 * node.data.items.length := by
  obtain ⟨xs, ys, zs, coords, converted, hconv, hclen, hcvl, hb⟩ :=
    writeBinaryPnts_ok_shape conv formatF f32b node bytes hw
  subst hb
  have hpos : (coords.flatMap f32b).length = 4 * coords.length :=
    length_flatMap_const4 f32b hf coords
  have hcol : (node.data.items.flatMap (fun e => [e.R, e.G, e.B])).length
      = 3 * node.data.items.length :=
    length_flatMap_triple _ _ _ node.data.items
  rw [pntsPayload_field8, pntsPayload_field12] at *
  rw [hpos, hcol] at *
  omega

/-- C6 witness: the byteLength relation on the concrete one-point file. -/
theorem C6_pnts_byteLength_witness :
    getU32 pntsBytes1 8 = 28 + getU32 pntsBytes1 12 + 12 * 1 + 3 * 1 :=
  C6_pnts_byteLength convOkW formatW f32W nodeOneItem pntsBytes1
    (fun _ => rfl) rfl (by decide)

/-- C10: on a node with zero items `writeBinaryPnts` returns no error; the
empty sums are divided by `pointNo = 0`, so each RTC center component is
the float64 NaN (in the model, `goDiv (fin 0) (fin 0) = GoFloat.nan`) and
the emitted feature table carries the formatter's rendering of NaN. -/
theorem C10_empty_node_writes_nan
    (conv : Rat × Rat × Rat → Except String (GoFloat × GoFloat × GoFloat))
    (formatF : GoFloat → String) (f32b : GoFloat → List Nat)
    (bb : BBox) (lc gc : Int) (lf : Bool)
    (children : List (Option OctNodeData)) (anc : List OctNodeData) :
    writeBinaryPnts conv formatF f32b ⟨⟨bb, [], lc, gc, lf⟩, children, anc⟩
      = .ok (pntsPayload
          (generateFeatureTableJson (formatF GoFloat.nan) (formatF GoFloat.nan)
            (formatF GoFloat.nan) 0)
          (generateBatchTableJson 0) [] [] [] []) ∧
    goDiv (GoFloat.fin 0) (GoFloat.fin ((0 : Nat) : Rat)) = GoFloat.nan := by
  constructor
  · rfl
  · rfl

/-! ### The geometric error (claim C5) -/

theorem countContained_eq (bbox : BBox) (items : List Element) :
    countContained bbox items
      = ((items.countP (fun e => bbox.CanContain e) : Nat) : Int) := by
  suffices h : ∀ acc : Int,
      items.foldl (fun acc e => if bbox.CanContain e then acc + 1 else acc) acc
        = acc + ((items.countP (fun e => bbox.CanContain e) : Nat) : Int) by
    simpa [countContained] using h 0
  induction items with
  | nil => intro acc; simp
  | cons e rest ih =>
    intro acc
    by_cases hc : bbox.CanContain e
    · simp [List.foldl_cons, hc, ih, List.countP_cons]
      omega
    · simp [List.foldl_cons, hc, ih, List.countP_cons]

theorem totalRenderedPoints_eq (d : OctNodeData) (anc : List OctNodeData) :
    totalRenderedPoints d anc = d.localChildrenCount +
      (anc.map (fun p =>
        ((p.items.countP (fun e => d.boundingBox.CanContain e) : Nat) : Int))).sum := by
  suffices h : ∀ acc : Int,
      anc.foldl (fun acc p => acc + countContained d.boundingBox p.items) acc
        = acc + (anc.map (fun p =>
            ((p.items.countP (fun e => d.boundingBox.CanContain e) : Nat) : Int))).sum by
    simpa [totalRenderedPoints] using h d.localChildrenCount
  induction anc with
  | nil => intro acc; simp
  | cons p rest ih =>
    intro acc
    rw [List.foldl_cons, ih, countContained_eq]
    simp [List.map_cons, List.sum_cons]
    omega

/-- C5 (amended): `computeGeometricError` equals the claimed formula with
the exponent `0.333` used by the source (`math.Pow(…, 0.333)`) in place of
the exact cube root: with
`T = localChildrenCount + Σ over ancestors of items inside the box`,
the error is `(V/T)^0.333 − (V/(T + global − local))^0.333`. -/
theorem C5_geometric_error_formula (d : OctNodeData) (anc : List OctNodeData) :
    computeGeometricError d anc =
      ((((d.boundingBox.GetVolume /
          ((d.localChildrenCount + (anc.map (fun p =>
            ((p.items.countP (fun e => d.boundingBox.CanContain e) : Nat) : Int))).sum
            : Int) : Rat)) : Rat) : ℝ) ^ (0.333 : ℝ))
      - ((((d.boundingBox.GetVolume /
          ((d.localChildrenCount + (anc.map (fun p =>
            ((p.items.countP (fun e => d.boundingBox.CanContain e) : Nat) : Int))).sum
            + d.globalChildrenCount - d.localChildrenCount : Int) : Rat)) : Rat) : ℝ)
          ^ (0.333 : ℝ)) := by
  simp only [computeGeometricError, computeGeometricErrorWith, goPow033,
    totalRenderedPoints_eq]

/-- The geometric error as the specification words it: the same `T`, `V`
and difference shape, but with the exact cube root `(·)^(1/3)` in place of
the source's `math.Pow(·, 0.333)`. Stated from the spec for comparison
with `computeGeometricError`. -/
noncomputable def specGeometricErrorCubeRoot (d : OctNodeData)
    (anc : List OctNodeData) : ℝ :=
  let T : Int := d.localChildrenCount + (anc.map (fun p =>
    ((p.items.countP (fun e => d.boundingBox.CanContain e) : Nat) : Int))).sum
  (((d.boundingBox.GetVolume / (T : Rat)) : ℝ) ^ ((1 : ℝ) / 3))
    - (((d.boundingBox.GetVolume /
        ((T + d.globalChildrenCount - d.localChildrenCount : Int) : Rat)) : ℝ)
        ^ ((1 : ℝ) / 3))

/-- A node whose box has volume 8, holding 1 local point over a subtree of
8 points, with one (empty) ancestor. -/
def nodeC5 : OctNodeData := ⟨⟨0, 2, 0, 2, 0, 2⟩, [], 1, 8, false⟩

/-- The parent chain of `nodeC5`: a single ancestor holding no items. -/
def ancC5 : List OctNodeData := [⟨⟨0, 4, 0, 4, 0, 4⟩, [], 0, 0, false⟩]

/-- C5, as written in the claim, fails: the source computes the densities
with `math.Pow(volume/count, 0.333)` and `0.333 < 1/3`, so on a node with
`V = 8`, `T = 1`, `global − local = 7` the code yields `8^0.333 − 1`,
strictly below the claimed `∛8 − 1 = 1`. -/
theorem C5_counterexample :
    computeGeometricError nodeC5 ancC5 ≠ specGeometricErrorCubeRoot nodeC5 ancC5 := by
  have h1 : computeGeometricError nodeC5 ancC5 = (8 : ℝ) ^ (0.333 : ℝ) - 1 := by
    rw [C5_geometric_error_formula]
    norm_num [nodeC5, ancC5, BBox.GetVolume, Real.one_rpow]
  have h2 : specGeometricErrorCubeRoot nodeC5 ancC5 = (8 : ℝ) ^ ((1 : ℝ) / 3) - 1 := by
    simp only [specGeometricErrorCubeRoot]
    norm_num [nodeC5, ancC5, BBox.GetVolume, Real.one_rpow]
  rw [h1, h2]
  intro h
  have hlt : (8 : ℝ) ^ (0.333 : ℝ) < (8 : ℝ) ^ ((1 : ℝ) / 3) :=
    Real.rpow_lt_rpow_of_exponent_lt (by norm_num) (by norm_num)
  linarith

/-! ### The tileset manifest (claim C7) -/

theorem tilesetChildrenLoop_urls (gopow : Rat → ℝ)
    (conv2D : BBox → Except String (List Rat))
    (parentChain : List OctNodeData) :
    ∀ (l : List (Nat × Option OctNodeData)) (cs : List Child),
      tilesetChildrenLoop gopow conv2D parentChain l = .ok cs →
      cs.map (fun ch => ch.content.url)
        = l.filterMap (fun p =>
            match p.2 with
            | some c =>
              if c.globalChildrenCount > 0 then
                some (toString p.1 ++ "/" ++
                  (if c.isLeaf then "content.pnts" else "tileset.json"))
              else none
            | none => none) := by
  intro l
  induction l with
  | nil =>
    intro cs h
    simp only [tilesetChildrenLoop] at h
    cases h
    rfl
  | cons p rest ih =>
    intro cs h
    rcases p with ⟨i, oc⟩
    cases oc with
    | none =>
      simp only [tilesetChildrenLoop] at h
      simpa using ih cs h
    | some c =>
      simp only [tilesetChildrenLoop] at h
      by_cases hg : c.globalChildrenCount > 0
      · rw [if_pos hg] at h
        cases hreg : conv2D c.boundingBox with
        | error e => rw [hreg] at h; cases h
        | ok reg =>
          rw [hreg] at h
          cases htail : tilesetChildrenLoop gopow conv2D parentChain rest with
          | error e => rw [htail] at h; cases h
          | ok tail =>
            rw [htail] at h
            simp only [Except.ok.injEq] at h
            subst h
            simp [List.filterMap_cons, hg, ih tail htail]
      · rw [if_neg hg] at h
        simp [List.filterMap_cons, hg, ih cs h]

/-- C7: for a non-leaf node, the tileset lists as children exactly the
child slots holding a non-null child with `globalChildrenCount > 0`, the
entry url being `"<i>/content.pnts"` for a leaf child and
`"<i>/tileset.json"` otherwise; for a leaf node `createTilesetJson`
returns an error and `doWork` writes no tileset. -/
theorem C7_tileset_children (gopow : Rat → ℝ)
    (conv : Rat × Rat × Rat → Except String (GoFloat × GoFloat × GoFloat))
    (formatF : GoFloat → String) (f32b : GoFloat → List Nat)
    (conv2D : BBox → Except String (List Rat))
    (node : OctNode) (ts : Tileset) (basePath : String) :
    (node.data.isLeaf = false →
      createTilesetJson gopow conv2D node = .ok ts →
      ts.root.children.map (fun ch => ch.content.url)
        = node.children.enum.filterMap (fun p =>
            match p.2 with
            | some c =>
              if c.globalChildrenCount > 0 then
                some (toString p.1 ++ "/" ++
                  (if c.isLeaf then "content.pnts" else "tileset.json"))
              else none
            | none => none)) ∧
    (node.data.isLeaf = true →
      (∃ msg, createTilesetJson gopow conv2D node = .error msg) ∧
      (∀ (pnts : List Nat) (tsOpt : Option Tileset),
        doWork gopow conv formatF f32b conv2D ⟨node, basePath⟩ = .ok (pnts, tsOpt) →
        tsOpt = none)) := by
  constructor
  · intro hleaf hok
    simp only [createTilesetJson, hleaf, Bool.not_false, if_true] at hok
    cases hloop : tilesetChildrenLoop gopow conv2D (node.data :: node.ancestors)
        node.children.enum with
    | error e => rw [hloop] at hok; cases hok
    | ok children =>
      rw [hloop] at hok
      cases hreg : conv2D node.data.boundingBox with
      | error e => rw [hreg] at hok; cases hok
      | ok reg =>
        rw [hreg] at hok
        simp only [Except.ok.injEq] at hok
        subst hok
        exact tilesetChildrenLoop_urls gopow conv2D _ _ children hloop
  · intro hleaf
    constructor
    · exact ⟨"this node is a leaf, cannot create tileset json for it",
        by simp [createTilesetJson, hleaf]⟩
    · intro pnts tsOpt hdw
      simp only [doWork] at hdw
      cases hwb : writeBinaryPnts conv formatF f32b node with
      | error e => rw [hwb] at hdw; cases hdw
      | ok p =>
        rw [hwb] at hdw
        simp only [hleaf, Bool.not_true, Bool.false_eq_true, if_false,
          Except.ok.injEq, Prod.mk.injEq] at hdw
        exact hdw.2.symm

/-- A leaf child with points, used by the concrete tileset scenario. -/
def childLeafW : OctNodeData := ⟨⟨0, 1, 0, 1, 0, 1⟩, [], 2, 5, true⟩

/-- An internal child with points, used by the concrete tileset scenario. -/
def childInternalW : OctNodeData := ⟨⟨1, 2, 0, 1, 0, 1⟩, [], 1, 3, false⟩

/-- A child whose subtree holds no points, used by the concrete tileset
scenario. -/
def childEmptyW : OctNodeData := ⟨⟨0, 1, 1, 2, 0, 1⟩, [], 0, 0, true⟩

/-- A non-leaf node with four child slots: a populated leaf, an empty
slot, a populated internal child and an empty child. -/
def nodeC7 : OctNode :=
  ⟨⟨⟨0, 2, 0, 2, 0, 2⟩, [], 1, 9, false⟩,
   [some childLeafW, none, some childInternalW, some childEmptyW], []⟩

/-- The tileset `createTilesetJson` produces for `nodeC7`. -/
noncomputable def tsC7 : Tileset :=
  ⟨⟨"0.0"⟩, computeGeometricErrorWith goPow033 nodeC7.data nodeC7.ancestors,
   ⟨[⟨⟨"0/content.pnts"⟩, ⟨[]⟩,
      computeGeometricErrorWith goPow033 childLeafW
        (nodeC7.data :: nodeC7.ancestors), "add"⟩,
     ⟨⟨"2/tileset.json"⟩, ⟨[]⟩,
      computeGeometricErrorWith goPow033 childInternalW
        (nodeC7.data :: nodeC7.ancestors), "add"⟩],
    ⟨"content.pnts"⟩, ⟨[]⟩,
    computeGeometricErrorWith goPow033 nodeC7.data nodeC7.ancestors, "add"⟩⟩

/-- C7 witness: the tileset for `nodeC7` lists exactly the populated
slots 0 and 2, the leaf child by its pnts url and the internal child by
its tileset url. -/
theorem C7_tileset_children_witness :
    tsC7.root.children.map (fun ch => ch.content.url)
      = ["0/content.pnts", "2/tileset.json"] := by
  have h := (C7_tileset_children goPow033 convOkW formatW f32W conv2DW
    nodeC7 tsC7 "p").1 rfl rfl
  rw [h]
  rfl

/-! ### The LAS reader (claims C1, C2) -/

/-- An identity coordinate converter for concrete reader scenarios. -/
def convIdW : Rat × Rat × Rat → Rat × Rat × Rat := fun t => t

/-- An identity elevation correction for concrete reader scenarios. -/
def zCorrIdW : Rat → Rat → Rat → Rat := fun _ _ z => z

/-- A format-0 header whose record length 21 matches no entry of the
format-0 row `[20, 18, 19, 17]`. -/
def hdrC1 : LasHeader := ⟨1, 21, 0, 1, 1, 1, 0, 0, 0, 0⟩

/-- A file holding one zeroed 21-byte record. -/
def fileC1 : List Nat := List.replicate 21 0

/-- A well-formed format-0 header (record length 20) over a file with no
point bytes at all, so the bulk `ReadAt` fails. -/
def hdrC2 : LasHeader := ⟨1, 20, 0, 1, 1, 1, 0, 0, 0, 0⟩

theorem readPointsOctElem_def (numCPU : Nat)
    (conv : Rat × Rat × Rat → Rat × Rat × Rat)
    (zC : Rat → Rat → Rat → Rat)
    (hdr : LasHeader) (file : List Nat) (readAtErr : Option GoReadErr) :
    readPointsOctElem numCPU conv zC hdr file readAtErr =
      match ((blocks hdr.NumberPoints numCPU).flatMap
          (fun p => List.range' p.1 (p.2 + 1 - p.1))).mapM
            (parsePoint hdr (selectFlags hdr.PointFormatID hdr.PointRecordLength).1
              (selectFlags hdr.PointFormatID hdr.PointRecordLength).2 conv zC
              (readAtBuffer file hdr.OffsetToPoints
                (hdr.NumberPoints * hdr.PointRecordLength))) with
      | some elems => Except.ok elems
      | none => Except.error "panic: index out of range" := by
  unfold readPointsOctElem
  cases readAtErr with
  | none => rfl
  | some e => by_cases he : e = GoReadErr.eof <;> simp [he]

/-- C1, as written in the claim, fails: for a format-0 header with record
length 21 (legal lengths are 20, 18, 19, 17) the reader returns no error
and parses the point record anyway. -/
theorem C1_counterexample :
    (21 ∉ recLengthsRow 0) ∧
    (readForOctree 1 convIdW zCorrIdW (.ok ()) (.ok hdrC1) (.ok ()) "r" fileC1
      none).isOk = true ∧
    (readForOctree 1 convIdW zCorrIdW (.ok ()) (.ok hdrC1) (.ok ()) "r" fileC1
      none).map List.length = .ok 1 := by
  refine ⟨by decide, ?_, ?_⟩ <;>
    (rw [show readForOctree 1 convIdW zCorrIdW (.ok ()) (.ok hdrC1) (.ok ()) "r"
          fileC1 none
        = readPointsOctElem 1 convIdW zCorrIdW hdrC1 fileC1 none from rfl,
      readPointsOctElem_def,
      show blocks hdrC1.NumberPoints 1 = [(0, 0)] from by
        simp [hdrC1, blocks, blocksLoop, blockEnd]];
     rfl)

theorem selectFlags_of_not_mem (fid L a b c d : Nat)
    (hrow : recLengthsRow fid = [a, b, c, d])
    (hlen : L ∉ recLengthsRow fid) :
    selectFlags fid L = (false, false) := by
  rw [hrow] at hlen
  simp only [List.mem_cons, List.not_mem_nil, or_false, not_or] at hlen
  obtain ⟨h1, h2, h3, h4⟩ := hlen
  simp [selectFlags, hrow, h1, h2, h3, h4]

/-- C1 (amended): when the record length matches no entry of the format's
row, `readForOctree` does not fail; the selection chain leaves both
`usePointIntensity` and `usePointUserdata` at their zero value `false`
and the reader proceeds to decode the point records with the minimal
layout. -/
theorem C1_mismatch_no_error (hdr : LasHeader) (numCPU : Nat)
    (conv : Rat × Rat × Rat → Rat × Rat × Rat)
    (zCorrection : Rat → Rat → Rat → Rat)
    (file : List Nat) (readAtErr : Option GoReadErr)
    (hfmt : hdr.PointFormatID < 4)
    (hlen : hdr.PointRecordLength ∉ recLengthsRow hdr.PointFormatID) :
    selectFlags hdr.PointFormatID hdr.PointRecordLength = (false, false) ∧
    readForOctree numCPU conv zCorrection (.ok ()) (.ok hdr) (.ok ()) "r" file
        readAtErr
      = readPointsOctElem numCPU conv zCorrection hdr file readAtErr := by
  constructor
  · have h4 : hdr.PointFormatID = 0 ∨ hdr.PointFormatID = 1 ∨
        hdr.PointFormatID = 2 ∨ hdr.PointFormatID = 3 := by omega
    rcases h4 with h | h | h | h <;> rw [h] at hlen ⊢ <;>
      exact selectFlags_of_not_mem _ _ _ _ _ _ rfl hlen
  · rfl

/-- C1 witness: the amended behavior at the concrete mismatching header
`hdrC1` (format 0, record length 21). -/
theorem C1_mismatch_no_error_witness :
    selectFlags 0 21 = (false, false) ∧
    readForOctree 1 convIdW zCorrIdW (.ok ()) (.ok hdrC1) (.ok ()) "r" fileC1 none
      = readPointsOctElem 1 convIdW zCorrIdW hdrC1 fileC1 none :=
  C1_mismatch_no_error hdrC1 1 convIdW zCorrIdW fileC1 none (by decide) (by decide)

/-- C2: the claim is right and the code is wrong. The source checks
`err != nil && err != io.EOF` after the bulk `ReadAt` but the `return err`
in the body is commented out, so the outcome never depends on the `ReadAt`
error: on a file with no point bytes and a non-EOF I/O error the reader
still returns success and parses the zero-filled buffer as one point. -/
theorem C2_readAt_error_swallowed :
    (∀ (numCPU : Nat) (conv : Rat × Rat × Rat → Rat × Rat × Rat)
       (zC : Rat → Rat → Rat → Rat) (hdr : LasHeader) (file : List Nat)
       (e : GoReadErr),
       readPointsOctElem numCPU conv zC hdr file (some e)
         = readPointsOctElem numCPU conv zC hdr file none) ∧
    (readPointsOctElem 1 convIdW zCorrIdW hdrC2 []
      (some (.ioError "disk read failed"))).isOk = true ∧
    (readPointsOctElem 1 convIdW zCorrIdW hdrC2 []
      (some (.ioError "disk read failed"))).map List.length = .ok 1 := by
  refine ⟨fun numCPU conv zC hdr file e => by
      rw [readPointsOctElem_def, readPointsOctElem_def], ?_, ?_⟩ <;>
    (rw [readPointsOctElem_def,
      show blocks hdrC2.NumberPoints 1 = [(0, 0)] from by
        simp [hdrC2, blocks, blocksLoop, blockEnd]];
     rfl)
